import Mathlib

/-!
Shallow embedding of `src/main.py` (regis_todo_list): a recurring-inspection
management webapp.  Python functions are translated to pure Lean functions;
the SQLite database is modelled as an explicit `DB` record threaded through
each operation.  SQL statements are modelled row-by-row on lists:
`SELECT ... fetchone` is `List.find?`, `INSERT` appends a row, `UPDATE` maps
over the rows, `DELETE` filters them, and `ORDER BY order_num` is a stable
insertion sort on the `order_num` column.
-/

namespace RegisTodo

/-- Python `str.strip()` on a character list: drop whitespace at both
ends. -/
def pyStripChars (s : List Char) : List Char :=
  ((s.dropWhile Char.isWhitespace).reverse.dropWhile Char.isWhitespace).reverse

/-- Python `str.strip()`. -/
def pyStrip (s : String) : String := String.mk (pyStripChars s.data)

/-- Model of Python `int(s)` applied to a character list: optional
surrounding whitespace, an optional sign, then decimal digits; `none`
where Python raises `ValueError`. -/
def pyIntChars? (s : List Char) : Option Int :=
  let core : List Char → Option Int := fun ds =>
    if ds = [] ∨ ¬ ds.all Char.isDigit then none
    else some (ds.foldl (fun acc d => acc * 10 + ((d.toNat : Int) - 48)) 0)
  match pyStripChars s with
  | '-' :: rest => (core rest).map (fun n => -n)
  | '+' :: rest => core rest
  | t => core t

/-- Model of Python `int(s)` applied to a string. -/
def pyInt? (s : String) : Option Int := pyIntChars? s.data

/-- Python `str.split(sep)` for a one-character separator: accumulator of
the current piece (reversed), recursion over the rest. -/
def pySplitAllAux (sep : Char) : List Char → List Char → List (List Char)
  | cur, [] => [cur.reverse]
  | cur, c :: cs =>
    if c = sep then cur.reverse :: pySplitAllAux sep [] cs
    else pySplitAllAux sep (c :: cur) cs

/-- Python `str.split(sep)` for a one-character separator. -/
def pySplitAll (sep : Char) (s : List Char) : List (List Char) :=
  pySplitAllAux sep [] s

/-- `parse_month_list` from `src/main.py` lines 172-184.  The `try/except
ValueError` wraps the whole comprehension, so it is modelled with
`Option.mapM`: one bad token discards every token. -/
def parse_month_list (month_list_str : Option String) : List Int :=
  match month_list_str with
  | none => []
  | some s =>
    if s = "" then []
    else
      match ((pySplitAll ',' s.data).filter
          (fun m => !(pyStripChars m).isEmpty)).mapM (fun m => pyIntChars? m) with
      | none => []
      | some months => months.filter (fun m => decide (1 ≤ m ∧ m ≤ 12))

/-- Due-month computation, inlined in `get_tasks_for_month`
(`src/main.py` lines 210-213). -/
def due_months (schedule_type : String) (schedule_detail : Option String) : List Int :=
  if schedule_type = "monthly" then (List.range 12).map (fun i => (i : Int) + 1)
  else parse_month_list schedule_detail

/-! ## Data model (`init_db`, lines 84-169) -/

structure Company where
  id : Nat
  name : String
  sub_name : Option String
deriving DecidableEq, Repr

structure Task where
  id : Nat
  company_id : Nat
  task_type : String
  signature_method : String
  schedule_type : String
  schedule_detail : Option String
  active : Bool
deriving DecidableEq, Repr

structure ChecklistItem where
  id : Nat
  task_id : Nat
  description : String
  attachment : Option String
  order_num : Int
  completed : Int
deriving DecidableEq, Repr

structure CompletionRecord where
  item_id : Nat
  year : Int
  month : Int
  completed : Int
deriving DecidableEq, Repr

/-- The SQLite database: row lists plus the AUTOINCREMENT counter for
`checklist_items`. -/
structure DB where
  companies : List Company
  tasks : List Task
  items : List ChecklistItem
  completions : List CompletionRecord
  next_item_id : Nat
deriving DecidableEq, Repr

/-! ## Completion ledger -/

/-- The `WHERE item_id = ? AND year = ? AND month = ?` condition. -/
def matchesKey (i : Nat) (y m : Int) (r : CompletionRecord) : Bool :=
  r.item_id == i && r.year == y && r.month == m

/-- `ensure_completion` (lines 255-278): `SELECT ... fetchone`; if no row
exists, `INSERT ... completed = 0` and return `0`. -/
def ensure_completion (db : DB) (item_id : Nat) (year month : Int) : Int × DB :=
  match db.completions.find? (matchesKey item_id year month) with
  | some r => (r.completed, db)
  | none => (0, { db with completions := db.completions ++ [⟨item_id, year, month, 0⟩] })

/-- The value `ensure_completion` reads: the value the ledger holds. -/
def statusOf (db : DB) (item_id : Nat) (year month : Int) : Int :=
  match db.completions.find? (matchesKey item_id year month) with
  | some r => r.completed
  | none => 0

/-- Row action of the `UPDATE checklist_completions SET completed = ?`
statement. -/
def setCompleted (item_id : Nat) (year month : Int) (v : Int) (r : CompletionRecord) :
    CompletionRecord :=
  if matchesKey item_id year month r then { r with completed := v } else r

/-- The `UPDATE checklist_completions SET completed = ?` statement of
`toggle_item_handler` (lines 1064-1067). -/
def update_completion (db : DB) (item_id : Nat) (year month : Int) (v : Int) : DB :=
  { db with completions := db.completions.map (setCompleted item_id year month v) }

/-- Core of `toggle_item_handler` (lines 1058-1069): read the current
status via `ensure_completion`, flip it, persist it. -/
def toggle_item (db : DB) (item_id : Nat) (year month : Int) : Int × DB :=
  let cur := ensure_completion db item_id year month
  let new_status : Int := if cur.1 = 1 then 0 else 1
  (new_status, update_completion cur.2 item_id year month new_status)

/-- Number of `checklist_completions` rows with the given key. -/
def countRecords (db : DB) (i : Nat) (y m : Int) : Nat :=
  (db.completions.filter (matchesKey i y m)).length

/-- The `UNIQUE(item_id, year, month)` invariant of `init_db` (line 151). -/
def atMostOne (db : DB) : Prop :=
  ∀ i y m, countRecords db i y m ≤ 1

/-- Every stored completion flag is 0 or 1 (all writers in `main.py` write
only 0 or 1). -/
def BoolVals (db : DB) : Prop :=
  ∀ r ∈ db.completions, r.completed = 0 ∨ r.completed = 1

/-! ## Task aggregation -/

/-- Loop body of `get_incomplete_count_year_month` (lines 296-299). -/
def incomplete_step (year month : Int) (acc : Nat × DB) (i : Nat) : Nat × DB :=
  let r := ensure_completion acc.2 i year month
  (if r.1 = 0 then acc.1 + 1 else acc.1, r.2)

/-- `get_incomplete_count_year_month` (lines 281-300). -/
def get_incomplete_count_year_month (db : DB) (task_id : Nat) (year month : Int) :
    Nat × DB :=
  ((db.items.filter (fun it => it.task_id == task_id)).map (fun it => it.id)).foldl
    (incomplete_step year month) (0, db)

/-- Stable insertion of an item into a list sorted by `order_num`. -/
def insertByOrder (x : ChecklistItem) : List ChecklistItem → List ChecklistItem
  | [] => [x]
  | y :: ys => if y.order_num ≤ x.order_num then y :: insertByOrder x ys else x :: y :: ys

/-- Model of `ORDER BY order_num` (stable insertion sort). -/
def sortByOrderNum (l : List ChecklistItem) : List ChecklistItem :=
  l.foldr insertByOrder []

/-- Loop body of `get_items_with_completion` (lines 318-320). -/
def items_step (year month : Int) (acc : List (ChecklistItem × Int) × DB)
    (it : ChecklistItem) : List (ChecklistItem × Int) × DB :=
  let r := ensure_completion acc.2 it.id year month
  (acc.1 ++ [(it, r.1)], r.2)

/-- `get_items_with_completion` (lines 303-321): each item of the task in
`order_num` order, paired with its per-period status. -/
def get_items_with_completion (db : DB) (task_id : Nat) (year month : Int) :
    List (ChecklistItem × Int) × DB :=
  (sortByOrderNum (db.items.filter (fun it => it.task_id == task_id))).foldl
    (items_step year month) ([], db)

/-- `get_tasks_for_month` (lines 187-217): active tasks joined with their
company, kept when the month is among the due months. -/
def get_tasks_for_month (db : DB) (month : Int) : List Task :=
  ((db.tasks.filter
      (fun t => t.active && db.companies.any (fun c => c.id == t.company_id))).filter
    (fun t => (due_months t.schedule_type t.schedule_detail).contains month))

/-- Per-task fields computed by `dashboard_handler` (lines 460-469):
`(incomplete_count, is_overdue, items)`. -/
def dashboard_annotate (db : DB) (t : Task) (year month : Int) :
    (Nat × Bool × List (ChecklistItem × Int)) × DB :=
  let inc := get_incomplete_count_year_month db t.id year month
  let its := get_items_with_completion inc.2 t.id year month
  ((inc.1, decide (0 < inc.1), its.1), its.2)

/-- Query-parameter handling of `dashboard_handler` (lines 423-453); each
`try/except ValueError` is modelled by `pyInt?` returning `none`.  The
function is total: no malformed parameter can raise. -/
def dashboard_params (qmonth qyear qcompany : Option String) (now_year now_month : Int) :
    Int × Int × Option Int :=
  let selected_month := match qmonth with
    | none => now_month
    | some s => (pyInt? s).getD now_month
  let selected_year := match qyear with
    | none => now_year
    | some s => (pyInt? s).getD now_year
  let company_id : Option Int := match qcompany with
    | none => none
    | some s => if s = "" then none else pyInt? s
  (selected_month, selected_year, company_id)

/-! ## Month statistics (`build_month_stats`, lines 497-525) -/

/-- `true` iff the task has at least one checklist item. -/
def hasItems (db : DB) (task_id : Nat) : Bool :=
  !(db.items.filter (fun it => it.task_id == task_id)).isEmpty

/-- Value-level reading of `get_incomplete_count_year_month`: the number of
the task's items whose per-period status reads 0. -/
def incompleteCountVal (db : DB) (task_id : Nat) (year month : Int) : Nat :=
  ((db.items.filter (fun it => it.task_id == task_id)).map (fun it => it.id)).countP
    (fun i => statusOf db i year month == 0)

/-- Loop body of `build_month_stats` (lines 515-521). -/
def stats_task_step (year month : Int) (total : Nat) (acc : Nat × DB) (t : Task) :
    Nat × DB :=
  let inc := get_incomplete_count_year_month acc.2 t.id year month
  let its := get_items_with_completion inc.2 t.id year month
  (if 0 < total ∧ 0 < its.1.length ∧ inc.1 = 0 then acc.1 + 1 else acc.1, its.2)

/-- The tasks of a month after the optional company filter
(lines 505-510). -/
def due_tasks_filtered (db : DB) (month : Int) (company_id : Option Nat) : List Task :=
  match company_id with
  | some cid => (get_tasks_for_month db month).filter (fun t => t.company_id == cid)
  | none => get_tasks_for_month db month

/-- One month of `build_month_stats` (lines 504-523). -/
def build_month_stats_month (db : DB) (year month : Int) (company_id : Option Nat) :
    (Nat × Nat) × DB :=
  let tasks := due_tasks_filtered db month company_id
  let total := tasks.length
  let r := tasks.foldl (stats_task_step year month total) (0, db)
  ((r.1, total), r.2)

/-- `build_month_stats` (lines 497-525): months 1..12, threading the
lazily-materialised completion rows through the computation. -/
def build_month_stats (db : DB) (year : Int) (company_id : Option Nat) :
    List (Int × Nat × Nat) × DB :=
  ((List.range 12).map (fun i => (i : Int) + 1)).foldl
    (fun acc month =>
      let r := build_month_stats_month acc.2 year month company_id
      (acc.1 ++ [(month, r.1.1, r.1.2)], r.2))
    ([], db)

/-! ## Checklist item editor (`edit_task_post_handler`, lines 755-863) -/

/-- The submitted edit form, with file uploads modelled by their
already-generated stored reference (the blob store is out of scope). -/
structure EditForm where
  delete_item : Nat → Bool
  existing_desc : Nat → Option String
  existing_file : Nat → Option String
  new_items : List (String × Option String)

/-- `SELECT COALESCE(MAX(order_num), -1)` (line 831). -/
def sqlMax (l : List Int) : Int :=
  match l with
  | [] => -1
  | x :: xs => xs.foldl max x

/-- Row action of the item `UPDATE` statements (lines 815-825): set the new
description, and the new attachment when one was uploaded. -/
def applyItemUpdate (u : Nat × String × Option String) (it : ChecklistItem) :
    ChecklistItem :=
  if it.id == u.1 then
    match u.2.2 with
    | some a => { it with description := u.2.1, attachment := some a }
    | none => { it with description := u.2.1 }
  else it

/-- Row action of the renumbering `UPDATE` (lines 859-863). -/
def applyRenumber (p : Nat × Nat) (it : ChecklistItem) : ChecklistItem :=
  if it.id == p.2 then { it with order_num := (p.1 : Int) } else it

/-- Checklist reconciliation of `edit_task_post_handler` (lines 755-863):
collect deletions and updates in document order, delete items and their
completion rows, apply description/attachment updates, append new items
after the current maximal `order_num`, then renumber every item of the
task to a dense 0-based sequence in `order_num` order. -/
def edit_task_checklist (db : DB) (task_id : Nat) (f : EditForm) : DB :=
  let existing_items := sortByOrderNum (db.items.filter (fun it => it.task_id == task_id))
  let part := existing_items.partition (fun it => f.delete_item it.id)
  let ids_to_delete := part.1.map (fun it => it.id)
  let items_to_update := part.2.map (fun it =>
    (it.id,
     match f.existing_desc it.id with
     | some s => pyStrip s
     | none => it.description,
     f.existing_file it.id))
  let db1 := ids_to_delete.foldl
    (fun d del_id =>
      { d with
        completions := d.completions.filter (fun r => !(r.item_id == del_id)),
        items := d.items.filter (fun it => !(it.id == del_id)) })
    db
  let db2 := items_to_update.foldl
    (fun d u => { d with items := d.items.map (applyItemUpdate u) })
    db1
  let next_order :=
    sqlMax ((db2.items.filter (fun it => it.task_id == task_id)).map
      (fun it => it.order_num)) + 1
  let db3 := (f.new_items.foldl
    (fun (acc : DB × Int) p =>
      let ds := pyStrip p.1
      if ds = "" then acc
      else
        ({ acc.1 with
           items := acc.1.items ++ [⟨acc.1.next_item_id, task_id, ds, p.2, acc.2, 0⟩],
           next_item_id := acc.1.next_item_id + 1 },
         acc.2 + 1))
    (db2, next_order)).1
  let all_item_ids :=
    (sortByOrderNum (db3.items.filter (fun it => it.task_id == task_id))).map
      (fun it => it.id)
  (all_item_ids.enum).foldl
    (fun d p => { d with items := d.items.map (applyRenumber p) })
    db3

/-- Row action of `UPDATE checklist_items SET completed = 1 WHERE id = ?
AND task_id = ?` (line 1032). -/
def setLegacyCompleted (task_id item_id : Nat) (it : ChecklistItem) : ChecklistItem :=
  if it.id == item_id && it.task_id == task_id then { it with completed := 1 } else it

/-- `complete_item_handler` (lines 1024-1037): sets the legacy global
`completed` flag on `checklist_items` only. -/
def complete_item (db : DB) (task_id item_id : Nat) : DB :=
  { db with items := db.items.map (setLegacyCompleted task_id item_id) }

/-! ## Attachment references (`new_task_post_handler` line 624,
`attachments_handler` lines 1139-1140) -/

def digitChar (d : Nat) : Char := Char.ofNat (48 + d)

def natDigitsAux (n : Nat) (acc : List Char) : List Char :=
  if n < 10 then digitChar n :: acc
  else natDigitsAux (n / 10) (digitChar (n % 10) :: acc)
termination_by n
decreasing_by
  exact Nat.div_lt_self (by omega) (by omega)

/-- Decimal digits of `n`, as a Python f-string renders an int. -/
def natDigits (n : Nat) : List Char := natDigitsAux n []

/-- Split a character list at the first occurrence of `sep`. -/
def breakAt (sep : Char) : List Char → Option (List Char × List Char)
  | [] => none
  | c :: cs =>
    if c = sep then some ([], cs)
    else (breakAt sep cs).map (fun p => (c :: p.1, p.2))

/-- Python `str.split(sep, maxsplit)` for a one-character separator. -/
def pySplit (sep : Char) : List Char → Nat → List (List Char)
  | s, 0 => [s]
  | s, k + 1 =>
    match breakAt sep s with
    | none => [s]
    | some p => p.1 :: pySplit sep p.2 k

/-- The stored reference built in `new_task_post_handler` line 624:
timestamp, underscore, row index, underscore, original filename. -/
def attachment_unique_name (ts idx : Nat) (orig : List Char) : List Char :=
  natDigits ts ++ ('_' :: (natDigits idx ++ ('_' :: orig)))

/-- Original-name recovery in `attachments_handler` (lines 1139-1140):
split on the first two underscores and take the third part when the split
produced more than two parts. -/
def attachment_original_name (filename : List Char) : List Char :=
  if h : 2 < (pySplit '_' filename 2).length then (pySplit '_' filename 2).get ⟨2, h⟩
  else filename

/-! ## Basic lemmas about the ledger -/

theorem find?_eq_head?_filter {α : Type} (p : α → Bool) (l : List α) :
    l.find? p = (l.filter p).head? := by
  induction l with
  | nil => rfl
  | cons a t ih =>
    by_cases h : p a
    · rw [List.find?_cons_of_pos _ h, List.filter_cons_of_pos h]
      rfl
    · rw [List.find?_cons_of_neg _ h, List.filter_cons_of_neg (by simpa using h), ih]

theorem matchesKey_iff {i : Nat} {y m : Int} {r : CompletionRecord} :
    matchesKey i y m r = true ↔ r.item_id = i ∧ r.year = y ∧ r.month = m := by
  simp [matchesKey, and_assoc]

theorem matchesKey_mk (i : Nat) (y m : Int) (c : Int) :
    matchesKey i y m ⟨i, y, m, c⟩ = true := by
  simp [matchesKey]

theorem matchesKey_setCompleted (i i2 : Nat) (y m y2 m2 : Int) (v : Int)
    (r : CompletionRecord) :
    matchesKey i2 y2 m2 (setCompleted i y m v r) = matchesKey i2 y2 m2 r := by
  unfold setCompleted
  split <;> rfl

theorem filter_eq_nil_of_find?_eq_none {α : Type} {p : α → Bool} {l : List α}
    (h : l.find? p = none) : l.filter p = [] := by
  have h2 := find?_eq_head?_filter p l
  rw [h] at h2
  exact List.head?_eq_none_iff.mp h2.symm

theorem ensure_fst (db : DB) (i : Nat) (y m : Int) :
    (ensure_completion db i y m).1 = statusOf db i y m := by
  unfold ensure_completion statusOf
  cases h : db.completions.find? (matchesKey i y m) <;> simp [h]

theorem ensure_companies (db : DB) (i : Nat) (y m : Int) :
    (ensure_completion db i y m).2.companies = db.companies := by
  unfold ensure_completion
  cases h : db.completions.find? (matchesKey i y m) <;> simp [h]

theorem ensure_tasks (db : DB) (i : Nat) (y m : Int) :
    (ensure_completion db i y m).2.tasks = db.tasks := by
  unfold ensure_completion
  cases h : db.completions.find? (matchesKey i y m) <;> simp [h]

theorem ensure_items (db : DB) (i : Nat) (y m : Int) :
    (ensure_completion db i y m).2.items = db.items := by
  unfold ensure_completion
  cases h : db.completions.find? (matchesKey i y m) <;> simp [h]

theorem statusOf_ensure (db : DB) (i : Nat) (y m : Int) (i2 : Nat) (y2 m2 : Int) :
    statusOf (ensure_completion db i y m).2 i2 y2 m2 = statusOf db i2 y2 m2 := by
  unfold ensure_completion
  cases h : db.completions.find? (matchesKey i y m) with
  | some r => simp [h]
  | none =>
    simp only [h]
    unfold statusOf
    rw [find?_eq_head?_filter, find?_eq_head?_filter, List.filter_append]
    by_cases hk : matchesKey i2 y2 m2 (⟨i, y, m, 0⟩ : CompletionRecord) = true
    · obtain ⟨e1, e2, e3⟩ := matchesKey_iff.mp hk
      simp only at e1 e2 e3
      subst e1; subst e2; subst e3
      rw [filter_eq_nil_of_find?_eq_none h]
      simp [List.filter_cons_of_pos hk]
    · rw [List.filter_cons_of_neg (by simpa using hk)]
      simp

theorem find?_isSome_ensure (db : DB) (i : Nat) (y m : Int) :
    ((ensure_completion db i y m).2.completions.find? (matchesKey i y m)).isSome := by
  unfold ensure_completion
  cases h : db.completions.find? (matchesKey i y m) with
  | some r => simp [h]
  | none =>
    simp only [h]
    rw [find?_eq_head?_filter, List.filter_append, filter_eq_nil_of_find?_eq_none h]
    simp [List.filter_cons_of_pos (matchesKey_mk i y m 0)]

theorem ensure_of_isSome (db : DB) (i : Nat) (y m : Int)
    (h : (db.completions.find? (matchesKey i y m)).isSome) :
    ensure_completion db i y m = (statusOf db i y m, db) := by
  unfold ensure_completion statusOf
  cases hf : db.completions.find? (matchesKey i y m) with
  | some r => simp
  | none => rw [hf] at h; simp at h

/-! ## Lemmas about `update_completion` and `toggle_item` -/

theorem find?_map_setCompleted_self (i : Nat) (y m : Int) (v : Int)
    (l : List CompletionRecord) :
    (l.map (setCompleted i y m v)).find? (matchesKey i y m)
      = (l.find? (matchesKey i y m)).map (fun r => { r with completed := v }) := by
  induction l with
  | nil => rfl
  | cons a t ih =>
    by_cases h : matchesKey i y m a = true
    · have h2 : matchesKey i y m (setCompleted i y m v a) = true := by
        rw [matchesKey_setCompleted]; exact h
      rw [List.map_cons, List.find?_cons_of_pos _ h2, List.find?_cons_of_pos _ h]
      simp [setCompleted, h]
    · have h2 : ¬ matchesKey i y m (setCompleted i y m v a) = true := by
        rw [matchesKey_setCompleted]; exact h
      rw [List.map_cons, List.find?_cons_of_neg _ h2, List.find?_cons_of_neg _ h, ih]

theorem find?_map_setCompleted_other (i i2 : Nat) (y m y2 m2 : Int) (v : Int)
    (hne : ¬ (i2 = i ∧ y2 = y ∧ m2 = m)) (l : List CompletionRecord) :
    (l.map (setCompleted i y m v)).find? (matchesKey i2 y2 m2)
      = l.find? (matchesKey i2 y2 m2) := by
  induction l with
  | nil => rfl
  | cons a t ih =>
    by_cases h2 : matchesKey i2 y2 m2 a = true
    · have hna : ¬ matchesKey i y m a = true := by
        intro hk
        obtain ⟨b1, b2, b3⟩ := matchesKey_iff.mp hk
        obtain ⟨c1, c2, c3⟩ := matchesKey_iff.mp h2
        exact hne ⟨c1.symm.trans b1, c2.symm.trans b2, c3.symm.trans b3⟩
      have hsa : setCompleted i y m v a = a := by
        unfold setCompleted
        simp [hna]
      rw [List.map_cons, hsa, List.find?_cons_of_pos _ h2, List.find?_cons_of_pos _ h2]
    · have h2b : ¬ matchesKey i2 y2 m2 (setCompleted i y m v a) = true := by
        rw [matchesKey_setCompleted]; exact h2
      rw [List.map_cons, List.find?_cons_of_neg _ h2b, List.find?_cons_of_neg _ h2, ih]

theorem statusOf_update_self (db : DB) (i : Nat) (y m : Int) (v : Int)
    (h : (db.completions.find? (matchesKey i y m)).isSome) :
    statusOf (update_completion db i y m v) i y m = v := by
  unfold statusOf update_completion
  simp only
  rw [find?_map_setCompleted_self]
  cases hf : db.completions.find? (matchesKey i y m) with
  | none => rw [hf] at h; simp at h
  | some r => simp

theorem statusOf_update_other (db : DB) (i i2 : Nat) (y m y2 m2 : Int) (v : Int)
    (hne : ¬ (i2 = i ∧ y2 = y ∧ m2 = m)) :
    statusOf (update_completion db i y m v) i2 y2 m2 = statusOf db i2 y2 m2 := by
  unfold statusOf update_completion
  simp only
  rw [find?_map_setCompleted_other i i2 y m y2 m2 v hne]

theorem toggle_fst (db : DB) (i : Nat) (y m : Int) :
    (toggle_item db i y m).1 = (if statusOf db i y m = 1 then 0 else 1) := by
  unfold toggle_item
  simp [ensure_fst]

theorem toggle_items (db : DB) (i : Nat) (y m : Int) :
    (toggle_item db i y m).2.items = db.items := by
  unfold toggle_item update_completion
  simp [ensure_items]

theorem toggle_tasks (db : DB) (i : Nat) (y m : Int) :
    (toggle_item db i y m).2.tasks = db.tasks := by
  unfold toggle_item update_completion
  simp [ensure_tasks]

theorem toggle_companies (db : DB) (i : Nat) (y m : Int) :
    (toggle_item db i y m).2.companies = db.companies := by
  unfold toggle_item update_completion
  simp [ensure_companies]

theorem statusOf_toggle_self (db : DB) (i : Nat) (y m : Int) :
    statusOf (toggle_item db i y m).2 i y m = (toggle_item db i y m).1 := by
  unfold toggle_item
  simp only
  rw [statusOf_update_self _ _ _ _ _ (find?_isSome_ensure db i y m)]

theorem statusOf_toggle_other (db : DB) (i i2 : Nat) (y m y2 m2 : Int)
    (hne : ¬ (i2 = i ∧ y2 = y ∧ m2 = m)) :
    statusOf (toggle_item db i y m).2 i2 y2 m2 = statusOf db i2 y2 m2 := by
  unfold toggle_item
  simp only
  rw [statusOf_update_other _ _ _ _ _ _ _ _ hne, statusOf_ensure]

/-! ## Shape-preservation through threaded reads -/

/-- `db2` differs from `db` at most by lazily materialised default
completion rows: all tables read by the aggregation functions, and every
ledger read, agree. -/
def SameShape (db db2 : DB) : Prop :=
  db2.companies = db.companies ∧ db2.tasks = db.tasks ∧ db2.items = db.items ∧
  ∀ i y m, statusOf db2 i y m = statusOf db i y m

theorem sameShape_refl (db : DB) : SameShape db db :=
  ⟨rfl, rfl, rfl, fun _ _ _ => rfl⟩

theorem sameShape_trans {db1 db2 db3 : DB}
    (h1 : SameShape db1 db2) (h2 : SameShape db2 db3) : SameShape db1 db3 :=
  ⟨h2.1.trans h1.1, h2.2.1.trans h1.2.1, h2.2.2.1.trans h1.2.2.1,
   fun i y m => (h2.2.2.2 i y m).trans (h1.2.2.2 i y m)⟩

theorem ensure_sameShape (db : DB) (i : Nat) (y m : Int) :
    SameShape db (ensure_completion db i y m).2 :=
  ⟨ensure_companies db i y m, ensure_tasks db i y m, ensure_items db i y m,
   fun i2 y2 m2 => statusOf_ensure db i y m i2 y2 m2⟩

theorem incomplete_fold (y m : Int) (ids : List Nat) (n : Nat) (db : DB) :
    ((ids.foldl (incomplete_step y m) (n, db)).1
        = n + ids.countP (fun i => statusOf db i y m == 0))
    ∧ SameShape db (ids.foldl (incomplete_step y m) (n, db)).2 := by
  induction ids generalizing n db with
  | nil => exact ⟨by simp, sameShape_refl db⟩
  | cons i t ih =>
    rw [List.foldl_cons]
    have hstep : incomplete_step y m (n, db) i
        = (if statusOf db i y m = 0 then n + 1 else n, (ensure_completion db i y m).2) := by
      simp only [incomplete_step]
      rw [ensure_fst]
    rw [hstep]
    obtain ⟨ih1, ih2⟩ := ih (if statusOf db i y m = 0 then n + 1 else n)
      (ensure_completion db i y m).2
    refine ⟨?_, sameShape_trans (ensure_sameShape db i y m) ih2⟩
    rw [ih1, List.countP_cons]
    have hc : t.countP (fun j => statusOf (ensure_completion db i y m).2 j y m == 0)
        = t.countP (fun j => statusOf db j y m == 0) :=
      List.countP_congr (fun j _ => by rw [statusOf_ensure])
    rw [hc]
    by_cases h0 : statusOf db i y m = 0
    · simp only [h0, if_pos]
      simp
      omega
    · simp [h0]

theorem incomplete_count_spec (db : DB) (tid : Nat) (y m : Int) :
    (get_incomplete_count_year_month db tid y m).1 = incompleteCountVal db tid y m
    ∧ SameShape db (get_incomplete_count_year_month db tid y m).2 := by
  unfold get_incomplete_count_year_month incompleteCountVal
  have h := incomplete_fold y m
    ((db.items.filter (fun it => it.task_id == tid)).map (fun it => it.id)) 0 db
  simpa using h

theorem items_fold (y m : Int) (its : List ChecklistItem)
    (acc : List (ChecklistItem × Int)) (db : DB) :
    ((its.foldl (items_step y m) (acc, db)).1.length = acc.length + its.length)
    ∧ SameShape db (its.foldl (items_step y m) (acc, db)).2 := by
  induction its generalizing acc db with
  | nil => exact ⟨by simp, sameShape_refl db⟩
  | cons it t ih =>
    rw [List.foldl_cons]
    have hstep : items_step y m (acc, db) it
        = (acc ++ [(it, (ensure_completion db it.id y m).1)],
           (ensure_completion db it.id y m).2) := rfl
    rw [hstep]
    obtain ⟨ih1, ih2⟩ := ih (acc ++ [(it, (ensure_completion db it.id y m).1)])
      (ensure_completion db it.id y m).2
    refine ⟨?_, sameShape_trans (ensure_sameShape db it.id y m) ih2⟩
    rw [ih1]
    simp
    omega

theorem insertByOrder_length (x : ChecklistItem) (l : List ChecklistItem) :
    (insertByOrder x l).length = l.length + 1 := by
  induction l with
  | nil => rfl
  | cons a t ih =>
    unfold insertByOrder
    split
    · simp [ih]
    · simp

theorem sortByOrderNum_length (l : List ChecklistItem) :
    (sortByOrderNum l).length = l.length := by
  unfold sortByOrderNum
  induction l with
  | nil => rfl
  | cons a t ih =>
    rw [List.foldr_cons, insertByOrder_length, ih]
    simp

theorem get_items_spec (db : DB) (tid : Nat) (y m : Int) :
    ((get_items_with_completion db tid y m).1.length
        = (db.items.filter (fun it => it.task_id == tid)).length)
    ∧ SameShape db (get_items_with_completion db tid y m).2 := by
  unfold get_items_with_completion
  obtain ⟨h1, h2⟩ := items_fold y m
    (sortByOrderNum (db.items.filter (fun it => it.task_id == tid))) [] db
  refine ⟨?_, h2⟩
  rw [h1, sortByOrderNum_length]
  simp

theorem incompleteCountVal_congr {db db2 : DB} (h : SameShape db db2)
    (tid : Nat) (y m : Int) :
    incompleteCountVal db2 tid y m = incompleteCountVal db tid y m := by
  unfold incompleteCountVal
  rw [h.2.2.1]
  exact List.countP_congr (fun j _ => by rw [h.2.2.2])

theorem hasItems_congr {db db2 : DB} (h : SameShape db db2) (tid : Nat) :
    hasItems db2 tid = hasItems db tid := by
  unfold hasItems
  rw [h.2.2.1]

theorem stats_task_step_spec (y m : Int) (total n : Nat) (db : DB) (t : Task)
    (htotal : 0 < total) :
    ((stats_task_step y m total (n, db) t).1
        = (if (hasItems db t.id && incompleteCountVal db t.id y m == 0) = true
           then n + 1 else n))
    ∧ SameShape db (stats_task_step y m total (n, db) t).2 := by
  obtain ⟨i1, i2⟩ := incomplete_count_spec db t.id y m
  obtain ⟨g1, g2⟩ :=
    get_items_spec (get_incomplete_count_year_month db t.id y m).2 t.id y m
  have hstep : stats_task_step y m total (n, db) t
      = (if 0 < total ∧
            0 < ((get_items_with_completion
                    (get_incomplete_count_year_month db t.id y m).2 t.id y m).1.length) ∧
            (get_incomplete_count_year_month db t.id y m).1 = 0
         then n + 1 else n,
         (get_items_with_completion
            (get_incomplete_count_year_month db t.id y m).2 t.id y m).2) := rfl
  rw [hstep]
  refine ⟨?_, sameShape_trans i2 g2⟩
  rw [g1, i2.2.2.1, i1]
  by_cases hlen : 0 < (db.items.filter (fun it => it.task_id == t.id)).length
  · have hhi : hasItems db t.id = true := by
      unfold hasItems
      rcases hfe : db.items.filter (fun it => it.task_id == t.id) with _ | ⟨a, l⟩
      · rw [hfe] at hlen
        simp at hlen
      · rw [hfe]
        rfl
    by_cases hv : incompleteCountVal db t.id y m = 0
    · simp [htotal, hlen, hv, hhi]
    · simp [htotal, hlen, hv, hhi]
  · have hfe : db.items.filter (fun it => it.task_id == t.id) = [] := by
      rcases hfe2 : db.items.filter (fun it => it.task_id == t.id) with _ | ⟨a, l⟩
      · exact hfe2
      · rw [hfe2] at hlen
        simp at hlen
    have hhi : hasItems db t.id = false := by
      unfold hasItems
      rw [hfe]
      rfl
    simp [hlen, hhi]

theorem stats_fold (y m : Int) (total : Nat) (htotal : 0 < total)
    (l : List Task) (n : Nat) (db : DB) :
    ((l.foldl (stats_task_step y m total) (n, db)).1
        = n + l.countP (fun t => hasItems db t.id && incompleteCountVal db t.id y m == 0))
    ∧ SameShape db (l.foldl (stats_task_step y m total) (n, db)).2 := by
  induction l generalizing n db with
  | nil => exact ⟨by simp, sameShape_refl db⟩
  | cons t ts ih =>
    rw [List.foldl_cons]
    obtain ⟨s1, s2⟩ := stats_task_step_spec y m total n db t htotal
    obtain ⟨ih1, ih2⟩ := ih (stats_task_step y m total (n, db) t).1
      (stats_task_step y m total (n, db) t).2
    have heta : stats_task_step y m total (n, db) t
        = ((stats_task_step y m total (n, db) t).1,
           (stats_task_step y m total (n, db) t).2) := rfl
    rw [heta]
    refine ⟨?_, sameShape_trans s2 ih2⟩
    rw [ih1, s1, List.countP_cons]
    have hcongr : ts.countP
          (fun u => hasItems (stats_task_step y m total (n, db) t).2 u.id
            && incompleteCountVal (stats_task_step y m total (n, db) t).2 u.id y m == 0)
        = ts.countP
          (fun u => hasItems db u.id && incompleteCountVal db u.id y m == 0) :=
      List.countP_congr
        (fun u _ => by rw [hasItems_congr s2, incompleteCountVal_congr s2])
    rw [hcongr]
    by_cases hp : (hasItems db t.id && incompleteCountVal db t.id y m == 0) = true
    · simp [hp]
      omega
    · simp [hp]

theorem build_month_stats_month_spec (db : DB) (year month : Int)
    (cid : Option Nat) :
    (build_month_stats_month db year month cid).1
      = ((due_tasks_filtered db month cid).countP
           (fun t => hasItems db t.id && incompleteCountVal db t.id year month == 0),
         (due_tasks_filtered db month cid).length) := by
  unfold build_month_stats_month
  rcases hts : due_tasks_filtered db month cid with _ | ⟨a, l⟩
  · simp
  · have htotal : 0 < (a :: l).length := by simp
    obtain ⟨h1, _⟩ := stats_fold year month (a :: l).length htotal (a :: l) 0 db
    simp only [h1]
    simp

/-! ## Counting lemmas for the uniqueness invariant -/

theorem countRecords_eq_countP (db : DB) (i : Nat) (y m : Int) :
    countRecords db i y m = db.completions.countP (matchesKey i y m) := by
  unfold countRecords
  rw [List.countP_eq_length_filter]

theorem countRecords_update (db : DB) (i : Nat) (y m : Int) (v : Int)
    (i2 : Nat) (y2 m2 : Int) :
    countRecords (update_completion db i y m v) i2 y2 m2 = countRecords db i2 y2 m2 := by
  rw [countRecords_eq_countP, countRecords_eq_countP]
  unfold update_completion
  simp only
  rw [List.countP_map _ _ _]
  exact List.countP_congr (fun r _ => by
    rw [Function.comp_apply, matchesKey_setCompleted])

theorem find?_none_of_countRecords_zero (db : DB) (i : Nat) (y m : Int)
    (h : countRecords db i y m = 0) :
    db.completions.find? (matchesKey i y m) = none := by
  rw [find?_eq_head?_filter]
  unfold countRecords at h
  rw [List.eq_nil_of_length_eq_zero h]
  rfl

theorem atMostOne_ensure (db : DB) (i : Nat) (y m : Int) (h : atMostOne db) :
    atMostOne (ensure_completion db i y m).2 := by
  intro i2 y2 m2
  unfold ensure_completion
  cases hf : db.completions.find? (matchesKey i y m) with
  | some r => exact h i2 y2 m2
  | none =>
    simp only [hf]
    unfold countRecords
    simp only [List.filter_append, List.length_append]
    by_cases hk : matchesKey i2 y2 m2 (⟨i, y, m, 0⟩ : CompletionRecord) = true
    · obtain ⟨e1, e2, e3⟩ := matchesKey_iff.mp hk
      simp only at e1 e2 e3
      subst e1; subst e2; subst e3
      rw [filter_eq_nil_of_find?_eq_none hf]
      simp [List.filter_cons_of_pos hk]
    · rw [List.filter_cons_of_neg (by simpa using hk)]
      have h2 := h i2 y2 m2
      unfold countRecords at h2
      simpa using h2

theorem atMostOne_update (db : DB) (i : Nat) (y m : Int) (v : Int)
    (h : atMostOne db) : atMostOne (update_completion db i y m v) := by
  intro i2 y2 m2
  rw [countRecords_update]
  exact h i2 y2 m2

theorem atMostOne_toggle (db : DB) (i : Nat) (y m : Int) (h : atMostOne db) :
    atMostOne (toggle_item db i y m).2 := by
  unfold toggle_item
  simp only
  exact atMostOne_update _ _ _ _ _ (atMostOne_ensure db i y m h)

theorem statusOf_mem01 (db : DB) (h : BoolVals db) (i : Nat) (y m : Int) :
    statusOf db i y m = 0 ∨ statusOf db i y m = 1 := by
  unfold statusOf
  cases hf : db.completions.find? (matchesKey i y m) with
  | none => exact Or.inl rfl
  | some r => exact h r (List.mem_of_find?_eq_some hf)

theorem update_items (db : DB) (i : Nat) (y m : Int) (v : Int) :
    (update_completion db i y m v).items = db.items := rfl

/-! ## Lemmas for attachment-reference round-tripping -/

theorem digitChar_ne_underscore (d : Nat) (hd : d < 10) : digitChar d ≠ '_' := by
  interval_cases d <;> decide

theorem natDigitsAux_no_underscore :
    ∀ (n : Nat) (acc : List Char), (∀ c ∈ acc, c ≠ '_') →
      ∀ c ∈ natDigitsAux n acc, c ≠ '_' := by
  intro n
  induction n using Nat.strong_induction_on with
  | _ n ih =>
    intro acc hacc c hc
    rw [natDigitsAux] at hc
    by_cases hlt : n < 10
    · rw [if_pos hlt] at hc
      rcases List.mem_cons.mp hc with h | h
      · subst h
        exact digitChar_ne_underscore n hlt
      · exact hacc c h
    · rw [if_neg hlt] at hc
      refine ih (n / 10) (Nat.div_lt_self (by omega) (by omega)) _ ?_ c hc
      intro c2 hc2
      rcases List.mem_cons.mp hc2 with h | h
      · subst h
        exact digitChar_ne_underscore (n % 10) (Nat.mod_lt _ (by omega))
      · exact hacc c2 h

theorem natDigits_no_underscore (n : Nat) : ∀ c ∈ natDigits n, c ≠ '_' :=
  natDigitsAux_no_underscore n [] (by simp)

theorem breakAt_append (sep : Char) (a rest : List Char)
    (ha : ∀ c ∈ a, c ≠ sep) :
    breakAt sep (a ++ sep :: rest) = some (a, rest) := by
  induction a with
  | nil => simp [breakAt]
  | cons c t ih =>
    have hc : ¬ c = sep := ha c (by simp)
    rw [List.cons_append]
    unfold breakAt
    rw [if_neg hc, ih (fun c2 h2 => ha c2 (by simp [h2]))]
    rfl

/-! ## Demo databases used by the scenario claims -/

/-- One company with one active monthly task of three checklist items,
all three complete in June 2025 and in no other period. -/
def statsDemoDB : DB :=
  ⟨[⟨1, "acme", none⟩],
   [⟨1, 1, "INHOUSE", "EMAIL", "monthly", none, true⟩],
   [⟨1, 1, "a", none, 0, 0⟩, ⟨2, 1, "b", none, 1, 0⟩, ⟨3, 1, "c", none, 2, 0⟩],
   [⟨1, 2025, 6, 1⟩, ⟨2, 2025, 6, 1⟩, ⟨3, 2025, 6, 1⟩],
   4⟩

/-- Task 1 with item A (id 1, order 0) and item B (id 2, order 1), an
arbitrary completion ledger `cs`, next item id 3. -/
def editDemoDB (cs : List CompletionRecord) : DB :=
  ⟨[], [], [⟨1, 1, "stepA", none, 0, 0⟩, ⟨2, 1, "stepB", none, 1, 0⟩], cs, 3⟩

/-- Edit form: delete item A (id 1), keep item B untouched, add one new
item with description stepC. -/
def editDemoForm : EditForm :=
  ⟨fun i => i == 1, fun _ => none, fun _ => none, [("stepC", none)]⟩

/-! ## Claim theorems -/

/-- C1, counterexample: the claim states
`dueMonths('custom', 'abc,13,0,5') = \x7b5\x7d`, but in `parse_month_list`
the `try/except ValueError` wraps the whole comprehension, so the
non-numeric token `abc` makes the function return the empty list. -/
theorem claim_C1_counterexample :
    due_months "custom" (some "abc,13,0,5") = []
    ∧ due_months "custom" (some "abc,13,0,5") ≠ [5] := by
  constructor
  · decide
  · decide

/-- C1, amended: `dueMonths('monthly', anything)` is 1..12; for
`quarterly`/`custom` the detail is parsed as comma-separated integers
where tokens outside [1,12] are dropped individually, but any non-numeric
token makes the whole detail parse as the empty set; empty or absent
detail yields the empty set; the function is total (never raises). -/
theorem claim_C1 :
    (∀ d, due_months "monthly" d = [1, 2, 3, 4, 5, 6, 7, 8, 9, 10, 11, 12])
    ∧ due_months "quarterly" (some "1,4,7,10") = [1, 4, 7, 10]
    ∧ due_months "custom" (some "13,0,5") = [5]
    ∧ due_months "custom" (some "abc,13,0,5") = []
    ∧ due_months "custom" none = []
    ∧ due_months "custom" (some "") = []
    ∧ parse_month_list none = []
    ∧ parse_month_list (some "") = [] := by
  refine ⟨fun d => rfl, by decide, by decide, by decide, by decide, by decide, rfl,
    by decide⟩

/-- C2: on a key with no record, `ensure_completion` returns 0 and inserts
exactly one `completed = 0` row; a second call returns the same value
without touching the database; and the at-most-one-record-per-key
invariant is preserved by every ledger operation. -/
theorem claim_C2 (db : DB) (i : Nat) (y m : Int) :
    (countRecords db i y m = 0 →
        (ensure_completion db i y m).1 = 0
        ∧ countRecords (ensure_completion db i y m).2 i y m = 1
        ∧ (ensure_completion db i y m).2.completions
            = db.completions ++ [⟨i, y, m, 0⟩])
    ∧ (ensure_completion (ensure_completion db i y m).2 i y m
        = ((ensure_completion db i y m).1, (ensure_completion db i y m).2))
    ∧ (atMostOne db →
        atMostOne (ensure_completion db i y m).2
        ∧ (∀ v, atMostOne (update_completion db i y m v))
        ∧ atMostOne (toggle_item db i y m).2) := by
  refine ⟨?_, ?_, ?_⟩
  · intro h0
    have hf := find?_none_of_countRecords_zero db i y m h0
    have hpair : ensure_completion db i y m
        = (0, { db with completions := db.completions ++ [⟨i, y, m, 0⟩] }) := by
      unfold ensure_completion
      rw [hf]
    refine ⟨by rw [hpair], ?_, by rw [hpair]⟩
    rw [hpair]
    unfold countRecords
    simp only [List.filter_append]
    rw [filter_eq_nil_of_find?_eq_none hf]
    simp [List.filter_cons_of_pos (matchesKey_mk i y m 0)]
  · rw [ensure_of_isSome _ _ _ _ (find?_isSome_ensure db i y m), statusOf_ensure,
      ensure_fst]
  · intro hA
    exact ⟨atMostOne_ensure db i y m hA,
      fun v => atMostOne_update db i y m v hA, atMostOne_toggle db i y m hA⟩

/-- Witness for C2 on the empty database at key (1, 2025, 3). -/
theorem claim_C2_witness :
    (ensure_completion ⟨[], [], [], [], 1⟩ 1 2025 3).1 = 0
    ∧ countRecords (ensure_completion ⟨[], [], [], [], 1⟩ 1 2025 3).2 1 2025 3 = 1
    ∧ atMostOne (toggle_item ⟨[], [], [], [], 1⟩ 1 2025 3).2 := by
  have h := claim_C2 ⟨[], [], [], [], 1⟩ 1 2025 3
  have h0 : countRecords ⟨[], [], [], [], 1⟩ 1 2025 3 = 0 := by decide
  have hA : atMostOne ⟨[], [], [], [], 1⟩ := by
    intro i y m
    simp [countRecords]
  exact ⟨(h.1 h0).1, (h.1 h0).2.1, (h.2.2 hA).2.2⟩

/-- C3: on a ledger whose stored flags are all boolean, each toggle
returns the flip of the status it read, and toggling twice restores the
stored status for that key. -/
theorem claim_C3 (db : DB) (i : Nat) (y m : Int) (h : BoolVals db) :
    (toggle_item db i y m).1 = 1 - statusOf db i y m
    ∧ (toggle_item (toggle_item db i y m).2 i y m).1 = 1 - (toggle_item db i y m).1
    ∧ statusOf (toggle_item (toggle_item db i y m).2 i y m).2 i y m
        = statusOf db i y m := by
  have hself := statusOf_toggle_self db i y m
  have hf1 := toggle_fst db i y m
  have hf2 := toggle_fst (toggle_item db i y m).2 i y m
  have hself2 := statusOf_toggle_self (toggle_item db i y m).2 i y m
  rcases statusOf_mem01 db h i y m with h0 | h0
  · rw [h0] at hf1
    norm_num at hf1
    rw [hself, hf1] at hf2
    norm_num at hf2
    refine ⟨?_, ?_, ?_⟩
    · rw [hf1, h0]
      norm_num
    · rw [hf2, hf1]
      norm_num
    · rw [hself2, hf2, h0]
  · rw [h0] at hf1
    norm_num at hf1
    rw [hself, hf1] at hf2
    norm_num at hf2
    refine ⟨?_, ?_, ?_⟩
    · rw [hf1, h0]
      norm_num
    · rw [hf2, hf1]
      norm_num
    · rw [hself2, hf2, h0]

/-- Witness for C3 on a ledger holding one completed record. -/
theorem claim_C3_witness :
    (toggle_item ⟨[], [], [], [⟨1, 2025, 3, 1⟩], 1⟩ 1 2025 3).1
        = 1 - statusOf ⟨[], [], [], [⟨1, 2025, 3, 1⟩], 1⟩ 1 2025 3
    ∧ statusOf (toggle_item
          (toggle_item ⟨[], [], [], [⟨1, 2025, 3, 1⟩], 1⟩ 1 2025 3).2 1 2025 3).2
          1 2025 3
        = statusOf ⟨[], [], [], [⟨1, 2025, 3, 1⟩], 1⟩ 1 2025 3 := by
  have hb : BoolVals ⟨[], [], [], [⟨1, 2025, 3, 1⟩], 1⟩ := by
    intro r hr
    simp only [List.mem_singleton] at hr
    subst hr
    exact Or.inr rfl
  have h := claim_C3 ⟨[], [], [], [⟨1, 2025, 3, 1⟩], 1⟩ 1 2025 3 hb
  exact ⟨h.1, h.2.2⟩

/-- C4: a task with zero checklist items has incomplete count 0, is never
annotated overdue on the dashboard, and never adds to the done count of
the month statistics. -/
theorem claim_C4 (db : DB) (t : Task) (year month : Int) (total acc : Nat)
    (hz : db.items.filter (fun it => it.task_id == t.id) = []) :
    (get_incomplete_count_year_month db t.id year month).1 = 0
    ∧ (dashboard_annotate db t year month).1.2.1 = false
    ∧ (stats_task_step year month total (acc, db) t).1 = acc := by
  have h1 : get_incomplete_count_year_month db t.id year month = (0, db) := by
    unfold get_incomplete_count_year_month
    rw [hz]
    rfl
  have h3 : get_items_with_completion db t.id year month = ([], db) := by
    unfold get_items_with_completion
    rw [hz]
    rfl
  refine ⟨by rw [h1], ?_, ?_⟩
  · unfold dashboard_annotate
    simp only [h1, h3]
    rfl
  · unfold stats_task_step
    simp only [h1, h3]
    simp

/-- Witness for C4 on a database with no checklist items. -/
theorem claim_C4_witness :
    (get_incomplete_count_year_month ⟨[], [], [], [], 1⟩ 7 2025 3).1 = 0
    ∧ (stats_task_step 2025 3 5 (2, ⟨[], [], [], [], 1⟩)
          ⟨7, 1, "INHOUSE", "EMAIL", "monthly", none, true⟩).1 = 2 := by
  have h := claim_C4 ⟨[], [], [], [], 1⟩
    ⟨7, 1, "INHOUSE", "EMAIL", "monthly", none, true⟩ 2025 3 5 2 (by decide)
  exact ⟨h.1, h.2.2⟩

/-- C5: toggling (or running the underlying update of) an item for period
(y1, m1) leaves the stored status of every key of a different period, and
every task's incomplete count for a different period, unchanged. -/
theorem claim_C5 (db : DB) (i i2 tid : Nat) (y1 m1 y2 m2 : Int) (v : Int)
    (h : ¬ (y2 = y1 ∧ m2 = m1)) :
    statusOf (toggle_item db i y1 m1).2 i2 y2 m2 = statusOf db i2 y2 m2
    ∧ statusOf (update_completion db i y1 m1 v) i2 y2 m2 = statusOf db i2 y2 m2
    ∧ (get_incomplete_count_year_month (toggle_item db i y1 m1).2 tid y2 m2).1
        = (get_incomplete_count_year_month db tid y2 m2).1
    ∧ (get_incomplete_count_year_month (update_completion db i y1 m1 v) tid y2 m2).1
        = (get_incomplete_count_year_month db tid y2 m2).1 := by
  have hne : ∀ j : Nat, ¬ (j = i ∧ y2 = y1 ∧ m2 = m1) := by
    intro j hj
    exact h ⟨hj.2.1, hj.2.2⟩
  refine ⟨statusOf_toggle_other db i i2 y1 m1 y2 m2 (hne i2),
    statusOf_update_other db i i2 y1 m1 y2 m2 v (hne i2), ?_, ?_⟩
  · rw [(incomplete_count_spec _ tid y2 m2).1, (incomplete_count_spec db tid y2 m2).1]
    unfold incompleteCountVal
    rw [toggle_items]
    exact List.countP_congr (fun j _ => by
      rw [statusOf_toggle_other db i j y1 m1 y2 m2 (hne j)])
  · rw [(incomplete_count_spec _ tid y2 m2).1, (incomplete_count_spec db tid y2 m2).1]
    unfold incompleteCountVal
    rw [update_items]
    exact List.countP_congr (fun j _ => by
      rw [statusOf_update_other db i j y1 m1 y2 m2 v (hne j)])

/-- Witness for C5: toggling (1, 2025, 3) does not change April 2025. -/
theorem claim_C5_witness :
    statusOf (toggle_item statsDemoDB 1 2025 3).2 1 2025 4
        = statusOf statsDemoDB 1 2025 4
    ∧ (get_incomplete_count_year_month (toggle_item statsDemoDB 1 2025 3).2 1 2025 4).1
        = (get_incomplete_count_year_month statsDemoDB 1 2025 4).1 := by
  have h := claim_C5 statsDemoDB 1 1 1 2025 3 2025 4 1 (by decide)
  exact ⟨h.1, h.2.2.1⟩

/-- C6: the June-complete monthly-task scenario yields (1,1) for June and
(0,1) for every other month; in general a month's done count is the
number of due tasks with at least one item and incomplete count 0, and
its total count is the number of due tasks. -/
theorem claim_C6 :
    (build_month_stats statsDemoDB 2025 none).1
      = [(1, 0, 1), (2, 0, 1), (3, 0, 1), (4, 0, 1), (5, 0, 1), (6, 1, 1),
         (7, 0, 1), (8, 0, 1), (9, 0, 1), (10, 0, 1), (11, 0, 1), (12, 0, 1)]
    ∧ ∀ (db : DB) (year month : Int) (cid : Option Nat),
        (build_month_stats_month db year month cid).1
          = ((due_tasks_filtered db month cid).countP
               (fun t => hasItems db t.id && incompleteCountVal db t.id year month == 0),
             (due_tasks_filtered db month cid).length) := by
  constructor
  · decide
  · intro db year month cid
    exact build_month_stats_month_spec db year month cid

/-- C7: editing a task that deletes item A (order 0), keeps item B
(order 1) and adds item C leaves the task's items renumbered densely as
B:0, C:1, removes every completion record of A, and keeps every
completion record of B (for every prior period) unchanged. -/
theorem claim_C7 (cs : List CompletionRecord) :
    (edit_task_checklist (editDemoDB cs) 1 editDemoForm).items
        = [⟨2, 1, "stepB", none, 0, 0⟩, ⟨3, 1, "stepC", none, 1, 0⟩]
    ∧ (edit_task_checklist (editDemoDB cs) 1 editDemoForm).completions
        = cs.filter (fun r => !(r.item_id == 1))
    ∧ (∀ r ∈ cs, r.item_id = 2 →
        r ∈ (edit_task_checklist (editDemoDB cs) 1 editDemoForm).completions)
    ∧ (∀ r ∈ (edit_task_checklist (editDemoDB cs) 1 editDemoForm).completions,
        r.item_id ≠ 1) := by
  have hc : (edit_task_checklist (editDemoDB cs) 1 editDemoForm).completions
      = cs.filter (fun r => !(r.item_id == 1)) := rfl
  refine ⟨rfl, hc, ?_, ?_⟩
  · intro r hr h2
    rw [hc, List.mem_filter]
    exact ⟨hr, by simp [h2]⟩
  · intro r hr
    rw [hc, List.mem_filter] at hr
    simpa using hr.2

/-- Witness for C7 with two concrete December 2020 completion records. -/
theorem claim_C7_witness :
    (edit_task_checklist (editDemoDB [⟨1, 2020, 12, 1⟩, ⟨2, 2020, 12, 1⟩])
        1 editDemoForm).items
      = [⟨2, 1, "stepB", none, 0, 0⟩, ⟨3, 1, "stepC", none, 1, 0⟩]
    ∧ (⟨2, 2020, 12, 1⟩ : CompletionRecord)
        ∈ (edit_task_checklist (editDemoDB [⟨1, 2020, 12, 1⟩, ⟨2, 2020, 12, 1⟩])
            1 editDemoForm).completions := by
  have h := claim_C7 [⟨1, 2020, 12, 1⟩, ⟨2, 2020, 12, 1⟩]
  exact ⟨h.1, h.2.2.1 ⟨2, 2020, 12, 1⟩ (by decide) rfl⟩

/-- C8: an absent or unparseable month or year query parameter falls back
to the current month or year, and an absent, empty or unparseable company
parameter is treated as no filter; the handler's parameter processing is a
total function, so no malformed parameter raises. -/
theorem claim_C8 (qm qy qc : Option String) (ny nm : Int) :
    ((dashboard_params none qy qc ny nm).1 = nm)
    ∧ (∀ s, pyInt? s = none → (dashboard_params (some s) qy qc ny nm).1 = nm)
    ∧ ((dashboard_params qm none qc ny nm).2.1 = ny)
    ∧ (∀ s, pyInt? s = none → (dashboard_params qm (some s) qc ny nm).2.1 = ny)
    ∧ ((dashboard_params qm qy none ny nm).2.2 = none)
    ∧ (∀ s, pyInt? s = none → (dashboard_params qm qy (some s) ny nm).2.2 = none) := by
  refine ⟨rfl, ?_, rfl, ?_, rfl, ?_⟩
  · intro s hs
    simp [dashboard_params, hs]
  · intro s hs
    simp [dashboard_params, hs]
  · intro s hs
    by_cases he : s = ""
    · simp [dashboard_params, he]
    · simp [dashboard_params, he, hs]

/-- Witness for C8 on the unparseable parameter value abc. -/
theorem claim_C8_witness :
    (dashboard_params (some "abc") none none 2025 10).1 = 10
    ∧ (dashboard_params none (some "abc") none 2025 10).2.1 = 2025
    ∧ (dashboard_params none none (some "abc") 2025 10).2.2 = none := by
  have h1 := (claim_C8 none none none 2025 10).2.1 "abc" (by decide)
  have h2 := (claim_C8 none none none 2025 10).2.2.2.1 "abc" (by decide)
  have h3 := (claim_C8 none none none 2025 10).2.2.2.2.2 "abc" (by decide)
  exact ⟨h1, h2, h3⟩

/-- C9: the stored attachment reference timestamp-underscore-index-
underscore-name always recovers exactly the original filename, including
filenames that contain underscores. -/
theorem claim_C9 (ts idx : Nat) (orig : List Char) :
    attachment_original_name (attachment_unique_name ts idx orig) = orig := by
  unfold attachment_unique_name attachment_original_name
  have e : pySplit '_' (natDigits ts ++ '_' :: (natDigits idx ++ '_' :: orig)) 2
      = [natDigits ts, natDigits idx, orig] := by
    unfold pySplit
    rw [breakAt_append '_' (natDigits ts) _ (natDigits_no_underscore ts)]
    simp only
    unfold pySplit
    rw [breakAt_append '_' (natDigits idx) _ (natDigits_no_underscore idx)]
    rfl
  rw [e]
  rfl

/-- C10: the legacy mark-complete action changes only the targeted item's
legacy flag: the completion table, every per-period status read by
`ensure_completion`, and every per-period incomplete count are unchanged,
and every non-flag column of every checklist item is unchanged. -/
theorem claim_C10 (db : DB) (tid iid : Nat) :
    (complete_item db tid iid).completions = db.completions
    ∧ (complete_item db tid iid).items.map
        (fun it => (it.id, it.task_id, it.description, it.attachment, it.order_num))
      = db.items.map
        (fun it => (it.id, it.task_id, it.description, it.attachment, it.order_num))
    ∧ (∀ i y m, (ensure_completion (complete_item db tid iid) i y m).1
        = (ensure_completion db i y m).1)
    ∧ (∀ t y m, (get_incomplete_count_year_month (complete_item db tid iid) t y m).1
        = (get_incomplete_count_year_month db t y m).1) := by
  refine ⟨rfl, ?_, ?_, ?_⟩
  · unfold complete_item
    simp only
    rw [List.map_map]
    exact List.map_congr_left (fun it _ => by
      unfold Function.comp setLegacyCompleted
      split <;> rfl)
  · intro i y m
    rw [ensure_fst, ensure_fst]
    rfl
  · intro t y m
    rw [(incomplete_count_spec _ t y m).1, (incomplete_count_spec db t y m).1]
    unfold incompleteCountVal
    have hids : ((complete_item db tid iid).items.filter
          (fun it => it.task_id == t)).map (fun it => it.id)
        = (db.items.filter (fun it => it.task_id == t)).map (fun it => it.id) := by
      unfold complete_item
      simp only
      induction db.items with
      | nil => rfl
      | cons a xs ih =>
        have hkey : (setLegacyCompleted tid iid a).task_id = a.task_id := by
          unfold setLegacyCompleted
          split <;> rfl
        have hid : (setLegacyCompleted tid iid a).id = a.id := by
          unfold setLegacyCompleted
          split <;> rfl
        rw [List.map_cons, List.filter_cons, List.filter_cons, hkey]
        by_cases hp : (a.task_id == t) = true
        · rw [if_pos hp, if_pos hp, List.map_cons, List.map_cons, hid, ih]
        · rw [if_neg hp, if_neg hp, ih]
    rw [hids]
    rfl

end RegisTodo
